import Mathlib

/-!
Verification of saleor/graphql/webhook/dataloaders.py: the keyed bulk
fetchers (PayloadByIdLoader, WebhookEventsByWebhookIdLoader,
WebhooksByAppIdLoader) and the tax-payload pregeneration orchestrator
(PregeneratedCheckoutTaxPayloadsByCheckoutTokenLoader).

Shallow embedding: each batch_load body is translated into a pure Lean
function over the data it receives.  Database query results and the
resolved values of promises are passed in as explicit arguments; the
external collaborators (tax-configuration resolver, strategy classifier,
preferred-integration resolver, query hash, payload generator) live in an
Env record of abstract functions, since their implementations are outside
this module.
-/

namespace SaleorWebhookDataloaders

/-- An EventPayload record; get_payload returns its opaque payload text. -/
structure EventPayload where
  payload_text : String
deriving DecidableEq, Repr

def EventPayload.get_payload (p : EventPayload) : String := p.payload_text

/-- A WebhookEvent row: foreign key webhook_id plus its event type. -/
structure WebhookEvent where
  webhook_id : Nat
  event_type : String
deriving DecidableEq, Repr

/-- A Webhook row: foreign key app_id and an optional subscription query
(Python None is modelled as none; the empty string is a distinct, also
falsy, value). -/
structure Webhook where
  id : Nat
  app_id : Nat
  subscription_query : Option String
deriving DecidableEq, Repr

/-- An App record: primary key id and optional identifier string. -/
structure App where
  id : Nat
  identifier : Option String
deriving DecidableEq, Repr

/-- Python truthiness of an optional string: None and the empty string are
falsy, every other string is truthy. -/
def strTruthy : Option String → Bool
  | none => false
  | some s => s ≠ ""

/-- PayloadByIdLoader.batch_load: the in_bulk result is modelled as a
partial map from id to record (a Python dict keyed by id abstracts over
row order); each requested key resolves to its record's get_payload, or
None when the map has no record for it. -/
def PayloadByIdLoader_batch_load (payloads : String → Option EventPayload)
    (keys : List String) : List (Option String) :=
  keys.map fun payload_id =>
    match payloads payload_id with
    | some p => some p.get_payload
    | none => none

/-- A finite map built like defaultdict(list): append each row to the
bucket of its key.  Modelled as a function into lists. -/
def bucketAppend {α β : Type} [DecidableEq α] (m : α → List β) (k : α) (b : β) :
    α → List β :=
  fun k' => if k' = k then m k' ++ [b] else m k'

/-- WebhookEventsByWebhookIdLoader.batch_load: group the query rows by
webhook_id with a defaultdict(list), then map each requested key to its
bucket (empty list when absent). -/
def WebhookEventsByWebhookIdLoader_batch_load (webhook_events : List WebhookEvent)
    (keys : List Nat) : List (List WebhookEvent) :=
  let webhook_events_map :=
    webhook_events.foldl (fun m event => bucketAppend m event.webhook_id event)
      (fun _ => [])
  keys.map fun webhook_id => webhook_events_map webhook_id

/-- WebhooksByAppIdLoader.batch_load: group the query rows by app_id with
a defaultdict(list), then map each requested key to its bucket. -/
def WebhooksByAppIdLoader_batch_load (webhooks : List Webhook)
    (keys : List Nat) : List (List Webhook) :=
  let webhooks_by_app_map :=
    webhooks.foldl (fun m webhook => bucketAppend m webhook.app_id webhook)
      (fun _ => [])
  keys.map fun app_id => webhooks_by_app_map app_id

theorem bucketAppend_foldl {α β : Type} [DecidableEq α]
    (fk : β → α) (rows : List β) (m : α → List β) (k : α) :
    (rows.foldl (fun m b => bucketAppend m (fk b) b) m) k
      = m k ++ rows.filter (fun b => fk b = k) := by
  induction rows generalizing m with
  | nil => simp
  | cons r rest ih =>
    simp only [List.foldl_cons, List.filter_cons]
    rw [ih]
    by_cases h : fk r = k
    · simp [bucketAppend, h]
    · have : ¬ (k = fk r) := fun hk => h hk.symm
      simp [bucketAppend, h, this]

/-- A checkout row: primary key (its token, already as a string; str(pk)
is the identity here) and the price_expiration timestamp. -/
structure Checkout where
  pk : String
  price_expiration : Int
deriving DecidableEq, Repr

/-- CheckoutInfo as delivered by CheckoutInfoByCheckoutTokenLoader; only
the wrapped checkout is consumed by this module. -/
structure CheckoutInfo where
  checkout : Checkout
deriving DecidableEq, Repr

/-- Opaque line-item info delivered by CheckoutLinesInfoByCheckoutTokenLoader;
this module only forwards it to the tax-configuration resolver. -/
structure LinesInfo where
  data : Nat
deriving DecidableEq, Repr

/-- The two tax calculation strategies distinguished by the code. -/
inductive TaxCalculationStrategy where
  | FLAT_RATES
  | TAX_APP
deriving DecidableEq, Repr

/-- Opaque tax configuration record, produced and consumed only by the
external resolver functions. -/
abbrev TaxConfig := Nat

/-- Opaque optional per-country tax configuration override. -/
abbrev CountryTaxConfig := Option Nat

/-- An opaque generated payload, a JSON-like dict; the empty dict is
falsy in Python. -/
abbrev Payload := List (String × String)

/-- The arguments of one generate_payload_promise_from_subscription call
that vary per call (event_type and request context are fixed for the
whole orchestration call). -/
structure GenCall where
  subscribable_object : Checkout
  subscription_query : String
  app : App
deriving DecidableEq, Repr

/-- The external collaborators consumed by the orchestrator, as abstract
functions.  generate_payload is "Modelled from the spec": the generator
collaborator (generate_payload_promise_from_subscription, not under this
module) resolves every issued call with an opaque payload or an
empty/falsy result; per the spec a generation failure is delivered as an
empty result, so the resolved value is an Option Payload and none covers
both "declined" and "errored". -/
structure Env where
  now : Int
  get_tax_configuration_for_checkout : CheckoutInfo → LinesInfo → TaxConfig × CountryTaxConfig
  get_tax_calculation_strategy : TaxConfig → CountryTaxConfig → TaxCalculationStrategy
  get_tax_app_id : TaxConfig → CountryTaxConfig → Option String
  get_subscription_query_hash : String → String
  generate_payload : GenCall → Option Payload

/-- One issued generation call, with the parameters captured for its
store_payload closure (checkout_token, app_id, query_hash are keyword
default-bound at definition time in the source). -/
structure IssuedCall where
  checkout_token : String
  app_id : Nat
  query_hash : String
  subscription_query : String
  checkout : Checkout
  app : App
deriving DecidableEq, Repr

def IssuedCall.toGenCall (c : IssuedCall) : GenCall :=
  { subscribable_object := c.checkout
    subscription_query := c.subscription_query
    app := c.app }

/-- Insert-or-update on an association list, mirroring a Python dict
assignment: an existing key is updated in place, a new key is appended
(dicts preserve insertion order). -/
def listInsert {α β : Type} [DecidableEq α] (m : List (α × β)) (k : α)
    (f : Option β → β) : List (α × β) :=
  match m with
  | [] => [(k, f none)]
  | (k', v) :: rest =>
      if k = k' then (k', f (some v)) :: rest else (k', v) :: listInsert rest k f

/-- Lookup on an association list (first binding wins; inserts keep keys
unique, matching dict semantics). -/
def listGet {α β : Type} [DecidableEq α] (m : List (α × β)) (k : α) : Option β :=
  (m.find? (fun kv => kv.1 = k)).map (fun kv => kv.2)

/-- The query_hash level of the nested result structure. -/
abbrev QueryMap := List (String × Payload)

/-- The app_id level: the per-checkout nested mapping the caller receives. -/
abbrev AppMap := List (Nat × QueryMap)

/-- The full nested result structure results, checkout_token to app_id to
query_hash to payload. -/
abbrev ResultsMap := List (String × AppMap)

/-- The dict assignment results[checkout_token][app_id][query_hash] = payload
on the nested defaultdict. -/
def storeTriple (r : ResultsMap) (checkout_token : String) (app_id : Nat)
    (query_hash : String) (payload : Payload) : ResultsMap :=
  listInsert r checkout_token (fun am =>
    listInsert (am.getD []) app_id (fun qm =>
      listInsert (qm.getD []) query_hash (fun _ => payload)))

/-- The store_payload callback: a truthy resolved payload is written under
the captured (checkout_token, app_id, query_hash) triple; None and the
empty dict are dropped. -/
def store_payload (r : ResultsMap) (checkout_token : String) (app_id : Nat)
    (query_hash : String) (payload : Option Payload) : ResultsMap :=
  match payload with
  | some p => if p = [] then r else storeTriple r checkout_token app_id query_hash p
  | none => r

/-- Resolve one issued generation promise and run its store_payload
callback on the current results map. -/
def runStep (env : Env) (r : ResultsMap) (c : IssuedCall) : ResultsMap :=
  store_payload r c.checkout_token c.app_id c.query_hash
    (env.generate_payload c.toGenCall)

/-- Resolve all issued generation promises and run each store_payload
callback; the fold order is the issue order (stores to distinct triples
commute, so any completion order yields this map). -/
def runCalls (env : Env) (calls : List IssuedCall) : ResultsMap :=
  calls.foldl (runStep env) []

/-- Lookup of one (checkout_token, app_id, query_hash) triple in the
nested results structure. -/
def lookupTriple (r : ResultsMap) (t : String) (a : Nat) (q : String) :
    Option Payload :=
  (listGet r t).bind fun am => (listGet am a).bind fun qm => listGet qm q

/-- A Python dict built by inserting each record under its id in list
order: later entries override earlier ones, so lookup finds the last
matching record. -/
def appsMapOf (apps : List App) : Nat → Option App :=
  fun i => apps.reverse.find? (fun a => a.id = i)

/-- The dict comprehension building apps_map from the app loader results:
a None entry raises (AttributeError on None.id), otherwise the map binds
each id to its record, later entries overriding earlier ones. -/
def mkAppsMap (apps : List (Option App)) : Except String (Nat → Option App) :=
  if apps.all Option.isSome then
    Except.ok (appsMapOf (apps.filterMap id))
  else
    Except.error "AttributeError: NoneType object has no attribute id"

/-- The body of the inner webhook loop for one webhook of an eligible
checkout: look the app up in apps_map (a missing key raises KeyError),
then emit a call when the subscription query is truthy and either no tax
app identifier is configured or the app's identifier equals it. -/
def webhookCall (env : Env) (apps_map : Nat → Option App)
    (tax_app_identifier : Option String) (checkout : Checkout) (w : Webhook) :
    Except String (Option IssuedCall) :=
  match apps_map w.app_id with
  | none => Except.error "KeyError"
  | some app =>
      if strTruthy w.subscription_query
          ∧ (strTruthy tax_app_identifier = false ∨ app.identifier = tax_app_identifier) then
        let q := w.subscription_query.getD ""
        Except.ok (some
          { checkout_token := checkout.pk
            app_id := w.app_id
            query_hash := env.get_subscription_query_hash q
            subscription_query := q
            checkout := checkout
            app := app })
      else
        Except.ok none

/-- The webhook loop over all candidates for one eligible checkout, in
candidate order. -/
def checkoutWebhookCalls (env : Env) (apps_map : Nat → Option App)
    (tax_app_identifier : Option String) (checkout : Checkout) :
    List Webhook → Except String (List IssuedCall)
  | [] => Except.ok []
  | w :: ws =>
      match webhookCall env apps_map tax_app_identifier checkout w with
      | Except.error e => Except.error e
      | Except.ok c =>
          match checkoutWebhookCalls env apps_map tax_app_identifier checkout ws with
          | Except.error e => Except.error e
          | Except.ok rest => Except.ok (c.toList ++ rest)

/-- Per-checkout evaluation: resolve the tax configuration and strategy,
apply the staleness gate (strategy is TAX_APP and price_expiration is at
or before now), and if eligible run the webhook loop; otherwise no call
is issued for this checkout. -/
def checkoutCalls (env : Env) (webhooks : List Webhook)
    (apps_map : Nat → Option App) (checkout_info : CheckoutInfo)
    (lines_info : LinesInfo) : Except String (List IssuedCall) :=
  let tc := env.get_tax_configuration_for_checkout checkout_info lines_info
  let tax_strategy := env.get_tax_calculation_strategy tc.1 tc.2
  if tax_strategy = TaxCalculationStrategy.TAX_APP
      ∧ checkout_info.checkout.price_expiration ≤ env.now then
    let tax_app_identifier := env.get_tax_app_id tc.1 tc.2
    checkoutWebhookCalls env apps_map tax_app_identifier checkout_info.checkout webhooks
  else
    Except.ok []

/-- The outer loop over zip(checkouts_info, checkout_lines_info),
concatenating each checkout's issued calls in order. -/
def allCalls (env : Env) (webhooks : List Webhook) (apps_map : Nat → Option App) :
    List (CheckoutInfo × LinesInfo) → Except String (List IssuedCall)
  | [] => Except.ok []
  | (ci, li) :: rest =>
      match checkoutCalls env webhooks apps_map ci li with
      | Except.error e => Except.error e
      | Except.ok cs =>
          match allCalls env webhooks apps_map rest with
          | Except.error e => Except.error e
          | Except.ok more => Except.ok (cs ++ more)

/-- The return_payloads projection: read results[str(checkout_token)] for
each input key in order; a token absent from the map yields the empty
mapping (defaultdict behaviour). -/
def return_payloads (results : ResultsMap) (keys : List String) : List AppMap :=
  keys.map (fun checkout_token => (listGet results checkout_token).getD [])

/-- The generate_payloads continuation: build apps_map, walk the zipped
checkout data issuing calls, resolve every call into the results map and
project it back over the input keys.  An exception while building
apps_map or looking up an app propagates as a rejection of the whole
batch. -/
def generate_payloads (env : Env) (webhooks : List Webhook) (keys : List String)
    (checkouts_info : List CheckoutInfo) (checkout_lines_info : List LinesInfo)
    (apps : List (Option App)) : Except String (List AppMap) :=
  match mkAppsMap apps with
  | Except.error e => Except.error e
  | Except.ok apps_map =>
      match allCalls env webhooks apps_map (checkouts_info.zip checkout_lines_info) with
      | Except.error e => Except.error e
      | Except.ok calls => Except.ok (return_payloads (runCalls env calls) keys)

/-- PregeneratedCheckoutTaxPayloadsByCheckoutTokenLoader.batch_load: the
three dependency fetches (checkout info, line info, app records) are
joined by Promise.all, so generate_payloads runs only once all three
resolved, and any rejection among them rejects the whole call. -/
def PregeneratedCheckoutTaxPayloadsByCheckoutTokenLoader_batch_load (env : Env)
    (webhooks : List Webhook) (keys : List String)
    (checkouts_info : Except String (List CheckoutInfo))
    (lines : Except String (List LinesInfo))
    (apps : Except String (List (Option App))) : Except String (List AppMap) :=
  match checkouts_info with
  | Except.error e => Except.error e
  | Except.ok ci =>
      match lines with
      | Except.error e => Except.error e
      | Except.ok li =>
          match apps with
          | Except.error e => Except.error e
          | Except.ok ap => generate_payloads env webhooks keys ci li ap

theorem listGet_nil {α β : Type} [DecidableEq α] (k : α) :
    listGet ([] : List (α × β)) k = none := rfl

theorem listGet_cons {α β : Type} [DecidableEq α] (k₀ : α) (v : β)
    (rest : List (α × β)) (k : α) :
    listGet ((k₀, v) :: rest) k = if k₀ = k then some v else listGet rest k := by
  by_cases h : k₀ = k
  · simp [listGet, List.find?, h]
  · simp [listGet, List.find?, h]

theorem listInsert_cons {α β : Type} [DecidableEq α] (k₀ : α) (v : β)
    (rest : List (α × β)) (k : α) (f : Option β → β) :
    listInsert ((k₀, v) :: rest) k f
      = if k = k₀ then (k₀, f (some v)) :: rest
        else (k₀, v) :: listInsert rest k f := rfl

theorem listGet_listInsert_self {α β : Type} [DecidableEq α]
    (m : List (α × β)) (k : α) (f : Option β → β) :
    listGet (listInsert m k f) k = some (f (listGet m k)) := by
  induction m with
  | nil => simp [listInsert, listGet_cons, listGet_nil]
  | cons kv rest ih =>
    obtain ⟨k₀, v⟩ := kv
    by_cases h : k = k₀
    · subst h
      rw [listInsert_cons, if_pos rfl, listGet_cons, if_pos rfl,
        listGet_cons, if_pos rfl]
    · have h' : k₀ ≠ k := fun hk => h hk.symm
      rw [listInsert_cons, if_neg h, listGet_cons, if_neg h',
        listGet_cons, if_neg h', ih]

theorem listGet_listInsert_ne {α β : Type} [DecidableEq α]
    (m : List (α × β)) (k k' : α) (f : Option β → β) (h : k' ≠ k) :
    listGet (listInsert m k f) k' = listGet m k' := by
  induction m with
  | nil =>
    have h' : k ≠ k' := fun hk => h hk.symm
    simp [listInsert, listGet_cons, listGet_nil, h']
  | cons kv rest ih =>
    obtain ⟨k₀, v⟩ := kv
    by_cases h0 : k = k₀
    · subst h0
      have h' : k ≠ k' := fun hk => h hk.symm
      rw [listInsert_cons, if_pos rfl, listGet_cons, if_neg h',
        listGet_cons, if_neg h']
    · rw [listInsert_cons, if_neg h0, listGet_cons, listGet_cons, ih]

theorem listGet_storeTriple_token_ne (r : ResultsMap) (t t' : String)
    (a : Nat) (q : String) (p : Payload) (h : t' ≠ t) :
    listGet (storeTriple r t a q p) t' = listGet r t' := by
  exact listGet_listInsert_ne r t t' _ h

theorem lookupTriple_storeTriple_self (r : ResultsMap) (t : String) (a : Nat)
    (q : String) (p : Payload) :
    lookupTriple (storeTriple r t a q p) t a q = some p := by
  simp only [lookupTriple, storeTriple]
  rw [listGet_listInsert_self]
  simp only [Option.some_bind]
  rw [listGet_listInsert_self]
  simp only [Option.some_bind]
  rw [listGet_listInsert_self]

theorem lookupTriple_storeTriple_ne (r : ResultsMap) (t t' : String)
    (a a' : Nat) (q q' : String) (p : Payload)
    (h : ¬ (t' = t ∧ a' = a ∧ q' = q)) :
    lookupTriple (storeTriple r t a q p) t' a' q' = lookupTriple r t' a' q' := by
  by_cases ht : t' = t
  · subst ht
    simp only [lookupTriple, storeTriple]
    rw [listGet_listInsert_self]
    simp only [Option.some_bind]
    by_cases ha : a' = a
    · subst ha
      rw [listGet_listInsert_self]
      simp only [Option.some_bind]
      have hq : q' ≠ q := fun hqe => h ⟨rfl, rfl, hqe⟩
      rw [listGet_listInsert_ne _ _ _ _ hq]
      cases hr : listGet r t' with
      | none => simp [listGet_nil]
      | some am =>
        cases ham : listGet am a' with
        | none => simp [ham, listGet_nil]
        | some qm => simp [ham]
    · rw [listGet_listInsert_ne _ _ _ _ ha]
      cases hr : listGet r t' with
      | none => simp [listGet_nil]
      | some am => simp
  · simp only [lookupTriple, storeTriple]
    rw [listGet_listInsert_ne _ _ _ _ ht]

theorem lookupTriple_store_payload_ne (r : ResultsMap) (t t' : String)
    (a a' : Nat) (q q' : String) (payload : Option Payload)
    (h : ¬ (t' = t ∧ a' = a ∧ q' = q)) :
    lookupTriple (store_payload r t a q payload) t' a' q' = lookupTriple r t' a' q' := by
  cases payload with
  | none => rfl
  | some p =>
    by_cases hp : p = []
    · simp [store_payload, hp]
    · show lookupTriple (if p = [] then r else storeTriple r t a q p) t' a' q'
        = lookupTriple r t' a' q'
      rw [if_neg hp]
      exact lookupTriple_storeTriple_ne r t t' a a' q q' p h

theorem listGet_store_payload_token_ne (r : ResultsMap) (t t' : String)
    (a : Nat) (q : String) (payload : Option Payload) (h : t' ≠ t) :
    listGet (store_payload r t a q payload) t' = listGet r t' := by
  cases payload with
  | none => rfl
  | some p =>
    by_cases hp : p = []
    · simp [store_payload, hp]
    · show listGet (if p = [] then r else storeTriple r t a q p) t' = listGet r t'
      rw [if_neg hp]
      exact listGet_storeTriple_token_ne r t t' a q p h

theorem foldl_runStep_lookup_ne (env : Env) (calls : List IssuedCall)
    (r : ResultsMap) (t : String) (a : Nat) (q : String)
    (h : ∀ c ∈ calls,
      ¬ (c.checkout_token = t ∧ c.app_id = a ∧ c.query_hash = q)) :
    lookupTriple (calls.foldl (runStep env) r) t a q = lookupTriple r t a q := by
  induction calls generalizing r with
  | nil => rfl
  | cons c rest ih =>
    simp only [List.foldl_cons]
    rw [ih _ (fun d hd => h d (List.mem_cons_of_mem c hd))]
    exact lookupTriple_store_payload_ne _ _ _ _ _ _ _ _
      (fun hc => h c (List.mem_cons_self c rest) ⟨hc.1.symm, hc.2.1.symm, hc.2.2.symm⟩)

theorem foldl_runStep_lookup_of_mem (env : Env) (calls : List IssuedCall)
    (r : ResultsMap) (c : IssuedCall)
    (hpair : calls.Pairwise (fun x y =>
      ¬ (x.checkout_token = y.checkout_token ∧ x.app_id = y.app_id
          ∧ x.query_hash = y.query_hash)))
    (hc : c ∈ calls) (p : Payload)
    (hp : env.generate_payload c.toGenCall = some p) (hne : p ≠ []) :
    lookupTriple (calls.foldl (runStep env) r) c.checkout_token c.app_id c.query_hash
      = some p := by
  induction calls generalizing r with
  | nil => cases hc
  | cons d rest ih =>
    obtain ⟨hhead, htail⟩ := List.pairwise_cons.mp hpair
    rcases List.mem_cons.mp hc with hcd | hcr
    · subst hcd
      simp only [List.foldl_cons]
      rw [foldl_runStep_lookup_ne env rest _ _ _ _
        (fun y hy htrip => hhead y hy ⟨htrip.1.symm, htrip.2.1.symm, htrip.2.2.symm⟩)]
      have hstep : runStep env r c
          = storeTriple r c.checkout_token c.app_id c.query_hash p := by
        simp [runStep, hp, store_payload, hne]
      rw [hstep, lookupTriple_storeTriple_self]
    · simp only [List.foldl_cons]
      exact ih _ htail hcr

def nodupKeys {α β : Type} (m : List (α × β)) : Prop := (m.map Prod.fst).Nodup

theorem keys_listInsert {α β : Type} [DecidableEq α] (m : List (α × β))
    (k : α) (f : Option β → β) :
    (listInsert m k f).map Prod.fst
      = if k ∈ m.map Prod.fst then m.map Prod.fst
        else m.map Prod.fst ++ [k] := by
  induction m with
  | nil => simp [listInsert]
  | cons kv rest ih =>
    obtain ⟨k₀, v⟩ := kv
    by_cases h : k = k₀
    · subst h
      rw [listInsert_cons, if_pos rfl]
      simp
    · rw [listInsert_cons, if_neg h]
      simp only [List.map_cons]
      rw [ih]
      by_cases hm : k ∈ rest.map Prod.fst
      · rw [if_pos hm, if_pos (by simp [List.mem_cons, hm])]
      · rw [if_neg hm, if_neg (by simp [List.mem_cons, h, hm])]
        simp

theorem nodupKeys_listInsert {α β : Type} [DecidableEq α] {m : List (α × β)}
    (k : α) (f : Option β → β) (h : nodupKeys m) :
    nodupKeys (listInsert m k f) := by
  unfold nodupKeys at h ⊢
  rw [keys_listInsert]
  by_cases hm : k ∈ m.map Prod.fst
  · rw [if_pos hm]
    exact h
  · rw [if_neg hm]
    refine List.Nodup.append h (List.nodup_singleton k) ?_
    intro x hx hxk
    rw [List.mem_singleton.mp hxk] at hx
    exact hm hx

theorem mem_listInsert {α β : Type} [DecidableEq α] {m : List (α × β)} {k : α}
    {f : Option β → β} {kv : α × β} (h : kv ∈ listInsert m k f) :
    kv ∈ m ∨ (∃ v, (k, v) ∈ m ∧ kv = (k, f (some v))) ∨ kv = (k, f none) := by
  induction m with
  | nil =>
    simp only [listInsert, List.mem_singleton] at h
    right; right; exact h
  | cons kv₀ rest ih =>
    obtain ⟨k₀, v₀⟩ := kv₀
    by_cases hk : k = k₀
    · subst hk
      rw [listInsert_cons, if_pos rfl] at h
      rcases List.mem_cons.mp h with h1 | h2
      · right; left; exact ⟨v₀, List.mem_cons_self _ _, h1⟩
      · left; exact List.mem_cons_of_mem _ h2
    · rw [listInsert_cons, if_neg hk] at h
      rcases List.mem_cons.mp h with h1 | h2
      · left
        rw [h1]
        exact List.mem_cons_self _ _
      · rcases ih h2 with h3 | ⟨v, hv, he⟩ | h4
        · left; exact List.mem_cons_of_mem _ h3
        · right; left; exact ⟨v, List.mem_cons_of_mem _ hv, he⟩
        · right; right; exact h4

/-- Well-formedness of a per-checkout nested mapping: the app ids are
pairwise distinct and so are the query hashes below each app id, so a
(app_id, query_hash) pair is bound at most once. -/
def AppMap.wf (am : AppMap) : Prop :=
  nodupKeys am ∧ ∀ kv ∈ am, nodupKeys kv.2

/-- Well-formedness of the full results structure: each level is keyed
without duplicates, so every (checkout_token, app_id, query_hash) triple
is bound at most once. -/
def ResultsMap.wf (r : ResultsMap) : Prop :=
  nodupKeys r ∧ ∀ kv ∈ r, AppMap.wf kv.2

theorem wf_inner (am : AppMap) (a : Nat) (q : String) (p : Payload)
    (h : AppMap.wf am) :
    AppMap.wf (listInsert am a (fun qm => listInsert (qm.getD []) q (fun _ => p))) := by
  constructor
  · exact nodupKeys_listInsert _ _ h.1
  · intro kv hkv
    rcases mem_listInsert hkv with h1 | ⟨v, hv, he⟩ | h2
    · exact h.2 kv h1
    · rw [he]
      exact nodupKeys_listInsert _ _ (h.2 (a, v) hv)
    · rw [h2]
      simp [nodupKeys, listInsert]

theorem wf_storeTriple (r : ResultsMap) (t : String) (a : Nat) (q : String)
    (p : Payload) (h : ResultsMap.wf r) :
    ResultsMap.wf (storeTriple r t a q p) := by
  constructor
  · exact nodupKeys_listInsert _ _ h.1
  · intro kv hkv
    rcases mem_listInsert hkv with h1 | ⟨v, hv, he⟩ | h2
    · exact h.2 kv h1
    · rw [he]
      exact wf_inner v a q p (h.2 (t, v) hv)
    · rw [h2]
      exact wf_inner [] a q p ⟨by simp [nodupKeys], by simp⟩

theorem wf_store_payload (r : ResultsMap) (t : String) (a : Nat) (q : String)
    (payload : Option Payload) (h : ResultsMap.wf r) :
    ResultsMap.wf (store_payload r t a q payload) := by
  cases payload with
  | none => exact h
  | some p =>
    by_cases hp : p = []
    · simpa [store_payload, hp] using h
    · show ResultsMap.wf (if p = [] then r else storeTriple r t a q p)
      rw [if_neg hp]
      exact wf_storeTriple r t a q p h

theorem wf_runCalls (env : Env) (calls : List IssuedCall) :
    ResultsMap.wf (runCalls env calls) := by
  have hstep : ∀ r, ResultsMap.wf r → ResultsMap.wf (calls.foldl (runStep env) r) := by
    induction calls with
    | nil => exact fun r hr => hr
    | cons c rest ih =>
      intro r hr
      exact ih _ (wf_store_payload _ _ _ _ _ hr)
  exact hstep [] ⟨by simp [nodupKeys], by simp⟩

theorem foldl_runStep_listGet_no_store (env : Env) (calls : List IssuedCall)
    (r : ResultsMap) (t : String)
    (h : ∀ c ∈ calls, c.checkout_token ≠ t
      ∨ env.generate_payload c.toGenCall = none
      ∨ env.generate_payload c.toGenCall = some []) :
    listGet (calls.foldl (runStep env) r) t = listGet r t := by
  induction calls generalizing r with
  | nil => rfl
  | cons c rest ih =>
    simp only [List.foldl_cons]
    rw [ih _ (fun d hd => h d (List.mem_cons_of_mem c hd))]
    rcases h c (List.mem_cons_self c rest) with hne | hfal | hfal
    · exact listGet_store_payload_token_ne _ _ _ _ _ _ (fun he => hne he.symm)
    · simp [runStep, store_payload, hfal]
    · simp [runStep, store_payload, hfal]

theorem listGet_runCalls_no_store (env : Env) (calls : List IssuedCall)
    (t : String)
    (h : ∀ c ∈ calls, c.checkout_token ≠ t
      ∨ env.generate_payload c.toGenCall = none
      ∨ env.generate_payload c.toGenCall = some []) :
    listGet (runCalls env calls) t = none := by
  unfold runCalls
  rw [foldl_runStep_listGet_no_store env calls [] t h]
  rfl

theorem generate_payloads_eq (env : Env) (webhooks : List Webhook)
    (keys : List String) (checkouts_info : List CheckoutInfo)
    (checkout_lines_info : List LinesInfo) (apps : List (Option App))
    (am : Nat → Option App) (calls : List IssuedCall)
    (ham : mkAppsMap apps = Except.ok am)
    (hcalls : allCalls env webhooks am (checkouts_info.zip checkout_lines_info)
      = Except.ok calls) :
    generate_payloads env webhooks keys checkouts_info checkout_lines_info apps
      = Except.ok (return_payloads (runCalls env calls) keys) := by
  simp [generate_payloads, ham, hcalls]

theorem generate_payloads_ok_inv (env : Env) (webhooks : List Webhook)
    (keys : List String) (checkouts_info : List CheckoutInfo)
    (checkout_lines_info : List LinesInfo) (apps : List (Option App))
    (out : List AppMap)
    (h : generate_payloads env webhooks keys checkouts_info checkout_lines_info apps
      = Except.ok out) :
    ∃ am calls, mkAppsMap apps = Except.ok am
      ∧ allCalls env webhooks am (checkouts_info.zip checkout_lines_info)
          = Except.ok calls
      ∧ out = return_payloads (runCalls env calls) keys := by
  unfold generate_payloads at h
  cases ham : mkAppsMap apps with
  | error e =>
    rw [ham] at h
    simp at h
  | ok am =>
    rw [ham] at h
    simp only [] at h
    cases hcalls : allCalls env webhooks am (checkouts_info.zip checkout_lines_info) with
    | error e =>
      rw [hcalls] at h
      simp at h
    | ok calls =>
      rw [hcalls] at h
      refine ⟨am, calls, rfl, hcalls, ?_⟩
      simpa using h.symm

/-! Concrete fixtures used by the witness theorems. -/

def app1 : App := { id := 1, identifier := some "P" }

def app2 : App := { id := 2, identifier := some "Q" }

def hookP : Webhook := { id := 10, app_id := 1, subscription_query := some "qp" }

def hookQ : Webhook := { id := 11, app_id := 2, subscription_query := some "qq" }

def hookP2 : Webhook := { id := 12, app_id := 1, subscription_query := some "qp" }

def checkout1 : Checkout := { pk := "t1", price_expiration := 50 }

def checkoutFresh : Checkout := { pk := "t2", price_expiration := 200 }

def ci1 : CheckoutInfo := { checkout := checkout1 }

def ciFresh : CheckoutInfo := { checkout := checkoutFresh }

def li1 : LinesInfo := { data := 0 }

def envBase : Env :=
  { now := 100
    get_tax_configuration_for_checkout := fun _ _ => (0, none)
    get_tax_calculation_strategy := fun _ _ => TaxCalculationStrategy.TAX_APP
    get_tax_app_id := fun _ _ => none
    get_subscription_query_hash := fun q => String.append "h:" q
    generate_payload := fun g => some [("q", g.subscription_query)] }

def envPref : Env :=
  { envBase with get_tax_app_id := fun _ _ => some "P" }

def envNoGen : Env :=
  { envBase with generate_payload := fun _ => none }

def call1 : IssuedCall :=
  { checkout_token := "t1"
    app_id := 1
    query_hash := "h:qp"
    subscription_query := "qp"
    checkout := checkout1
    app := app1 }

/-! Claim theorems. -/

/-- C7: PayloadByIdLoader.batch_load returns a sequence of the same
length as the input keys, and position i holds the payload of key i when
the bulk mapping has a record for it and the explicit None marker when it
does not, never an omitted slot — whatever id-to-record mapping the bulk
fetch produced. -/
theorem payload_by_id_positional (payloads : String → Option EventPayload)
    (keys : List String) :
    (PayloadByIdLoader_batch_load payloads keys).length = keys.length
    ∧ ∀ i : Nat, (PayloadByIdLoader_batch_load payloads keys)[i]?
        = (keys[i]?).map fun k => (payloads k).map EventPayload.get_payload := by
  constructor
  · simp [PayloadByIdLoader_batch_load]
  · intro i
    unfold PayloadByIdLoader_batch_load
    rw [List.getElem?_map]
    cases keys[i]? with
    | none => rfl
    | some k =>
      simp only [Option.map_some']
      cases payloads k with
      | none => rfl
      | some p => rfl

/-- C8: the events-by-webhook and webhooks-by-app loaders group the bulk
query rows by their foreign key and return, for each requested key in
input order, exactly the rows whose foreign key equals that key — an
empty sequence for a key with no matching rows, never an omitted entry. -/
theorem foreign_key_grouping_positional (webhook_events : List WebhookEvent)
    (webhooks : List Webhook) (event_keys app_keys : List Nat) :
    ((WebhookEventsByWebhookIdLoader_batch_load webhook_events event_keys).length
        = event_keys.length
      ∧ ∀ i : Nat, (WebhookEventsByWebhookIdLoader_batch_load webhook_events event_keys)[i]?
          = (event_keys[i]?).map fun k =>
              webhook_events.filter fun e => e.webhook_id = k)
    ∧ ((WebhooksByAppIdLoader_batch_load webhooks app_keys).length = app_keys.length
      ∧ ∀ i : Nat, (WebhooksByAppIdLoader_batch_load webhooks app_keys)[i]?
          = (app_keys[i]?).map fun k => webhooks.filter fun w => w.app_id = k) := by
  constructor
  · constructor
    · simp [WebhookEventsByWebhookIdLoader_batch_load]
    · intro i
      unfold WebhookEventsByWebhookIdLoader_batch_load
      rw [List.getElem?_map]
      cases event_keys[i]? with
      | none => rfl
      | some k =>
        simp only [Option.map_some']
        rw [bucketAppend_foldl (fun e => e.webhook_id) webhook_events (fun _ => []) k]
        simp
  · constructor
    · simp [WebhooksByAppIdLoader_batch_load]
    · intro i
      unfold WebhooksByAppIdLoader_batch_load
      rw [List.getElem?_map]
      cases app_keys[i]? with
      | none => rfl
      | some k =>
        simp only [Option.map_some']
        rw [bucketAppend_foldl (fun w => w.app_id) webhooks (fun _ => []) k]
        simp

/-- C2: per-checkout evaluation issues generation calls only behind the
staleness gate — the resolved strategy must be TAX_APP and the checkout's
cached price must have expired (price_expiration at or before now); when
the strategy is different or the cached price is unexpired, no generation
call is issued for that checkout regardless of how many webhook
candidates exist. -/
theorem staleness_gate (env : Env) (webhooks : List Webhook)
    (apps_map : Nat → Option App) (checkout_info : CheckoutInfo)
    (lines_info : LinesInfo)
    (h : env.get_tax_calculation_strategy
        (env.get_tax_configuration_for_checkout checkout_info lines_info).1
        (env.get_tax_configuration_for_checkout checkout_info lines_info).2
        ≠ TaxCalculationStrategy.TAX_APP
      ∨ env.now < checkout_info.checkout.price_expiration) :
    checkoutCalls env webhooks apps_map checkout_info lines_info = Except.ok [] := by
  have hgate : ¬ (env.get_tax_calculation_strategy
      (env.get_tax_configuration_for_checkout checkout_info lines_info).1
      (env.get_tax_configuration_for_checkout checkout_info lines_info).2
      = TaxCalculationStrategy.TAX_APP
    ∧ checkout_info.checkout.price_expiration ≤ env.now) := by
    rintro ⟨h1, h2⟩
    rcases h with h3 | h3
    · exact h3 h1
    · exact absurd h2 (not_le.mpr h3)
  simp only [checkoutCalls]
  rw [if_neg hgate]

/-- C2 witness: a checkout whose cached price expires at 200 while now is
100 gets no generation call even though a webhook candidate with a
present subscription query exists. -/
theorem staleness_gate_witness :
    checkoutCalls envBase [hookP] (appsMapOf [app1]) ciFresh li1 = Except.ok [] :=
  staleness_gate envBase [hookP] (appsMapOf [app1]) ciFresh li1
    (Or.inr (by decide))

/-- C3: for an eligible checkout, a webhook candidate whose app resolves
in apps_map produces a generation call if and only if its subscription
query is present (truthy) and either no preferred tax-app identifier is
configured (falsy) or the candidate app's identifier equals the preferred
identifier. -/
theorem preference_tie_break (env : Env) (apps_map : Nat → Option App)
    (tax_app_identifier : Option String) (checkout : Checkout) (w : Webhook)
    (app : App) (happ : apps_map w.app_id = some app) :
    (∃ ic, webhookCall env apps_map tax_app_identifier checkout w
        = Except.ok (some ic))
    ↔ (strTruthy w.subscription_query
        ∧ (strTruthy tax_app_identifier = false
            ∨ app.identifier = tax_app_identifier)) := by
  unfold webhookCall
  rw [happ]
  simp only []
  constructor
  · rintro ⟨ic, hic⟩
    by_cases hc : strTruthy w.subscription_query
        ∧ (strTruthy tax_app_identifier = false ∨ app.identifier = tax_app_identifier)
    · exact hc
    · rw [if_neg hc] at hic
      simp at hic
  · intro hc
    rw [if_pos hc]
    exact ⟨_, rfl⟩

/-- C3 witness: with preferred identifier P and candidates whose apps
carry identifiers P and Q, the P candidate is selected and the Q
candidate is not; the preference tie-break theorem decides both. -/
theorem preference_tie_break_witness :
    (∃ ic, webhookCall envPref (appsMapOf [app1, app2]) (some "P") checkout1 hookP
        = Except.ok (some ic))
    ∧ ¬ (∃ ic, webhookCall envPref (appsMapOf [app1, app2]) (some "P") checkout1 hookQ
        = Except.ok (some ic)) := by
  constructor
  · exact (preference_tie_break envPref (appsMapOf [app1, app2]) (some "P")
      checkout1 hookP app1 rfl).mpr (by decide)
  · intro hsel
    have hcond := (preference_tie_break envPref (appsMapOf [app1, app2]) (some "P")
      checkout1 hookQ app2 rfl).mp hsel
    revert hcond
    decide

/-- C9: when the app loader delivers a missing (None) record for any
requested app id, building apps_map raises before any per-checkout
filtering, so the whole pregeneration call fails with an error — even
when no checkout is eligible and even for candidates no checkout would
select; the bad candidate is never skipped. -/
theorem missing_app_fails_whole_call (env : Env) (webhooks : List Webhook)
    (keys : List String) (checkouts_info : List CheckoutInfo)
    (checkout_lines_info : List LinesInfo) (apps : List (Option App))
    (h : none ∈ apps) :
    generate_payloads env webhooks keys checkouts_info checkout_lines_info apps
      = Except.error "AttributeError: NoneType object has no attribute id" := by
  have hcond : ¬ (apps.all Option.isSome = true) := by
    intro htrue
    have hsome := List.all_eq_true.mp htrue none h
    simp at hsome
  have hmk : mkAppsMap apps
      = Except.error "AttributeError: NoneType object has no attribute id" := by
    unfold mkAppsMap
    rw [if_neg hcond]
  unfold generate_payloads
  rw [hmk]

/-- C9 witness: a missing app record fails the call even with no
checkouts at all (so no checkout is eligible and no candidate would ever
be selected). -/
theorem missing_app_fails_whole_call_witness :
    generate_payloads envBase [hookP] ["t1"] [] [] [none]
      = Except.error "AttributeError: NoneType object has no attribute id" :=
  missing_app_fails_whole_call envBase [hookP] ["t1"] [] [] [none] (by decide)

/-- C5: batch_load joins over exactly its three dependency fetches; when
all three resolve it runs generate_payloads on their values, and when any
of them fails the whole pregeneration call fails outright with no partial
result sequence. -/
theorem dependency_join (env : Env) (webhooks : List Webhook) (keys : List String)
    (checkouts_info : Except String (List CheckoutInfo))
    (lines : Except String (List LinesInfo))
    (apps : Except String (List (Option App))) :
    (∀ a b c, checkouts_info = Except.ok a → lines = Except.ok b →
      apps = Except.ok c →
      PregeneratedCheckoutTaxPayloadsByCheckoutTokenLoader_batch_load env webhooks
          keys checkouts_info lines apps
        = generate_payloads env webhooks keys a b c)
    ∧ (((∃ e, checkouts_info = Except.error e) ∨ (∃ e, lines = Except.error e)
        ∨ (∃ e, apps = Except.error e)) →
      ∃ e, PregeneratedCheckoutTaxPayloadsByCheckoutTokenLoader_batch_load env
          webhooks keys checkouts_info lines apps = Except.error e) := by
  constructor
  · intro a b c h1 h2 h3
    subst h1
    subst h2
    subst h3
    rfl
  · intro h
    cases checkouts_info with
    | error e => exact ⟨e, rfl⟩
    | ok a =>
      cases lines with
      | error e => exact ⟨e, rfl⟩
      | ok b =>
        cases apps with
        | error e => exact ⟨e, rfl⟩
        | ok c =>
          rcases h with ⟨e, he⟩ | ⟨e, he⟩ | ⟨e, he⟩ <;> simp at he

/-- C5 witness: with all three fetches resolved, the joined call equals
generate_payloads applied to the fetched values. -/
theorem dependency_join_witness :
    PregeneratedCheckoutTaxPayloadsByCheckoutTokenLoader_batch_load envBase [hookP]
        ["t1"] (Except.ok [ci1]) (Except.ok [li1]) (Except.ok [some app1])
      = generate_payloads envBase [hookP] ["t1"] [ci1] [li1] [some app1] :=
  (dependency_join envBase [hookP] ["t1"] (Except.ok [ci1]) (Except.ok [li1])
    (Except.ok [some app1])).1 [ci1] [li1] [some app1] rfl rfl rfl

/-- C4: a generation call that resolves with no payload (None) or an
empty/falsy payload contributes nothing to the nested result map — the
aggregation is the same as if the call had never been issued — and the
overall pregeneration call still succeeds whenever the per-checkout
evaluation succeeded, whatever every generation call resolves to; absent
entries therefore cannot distinguish a failed generation from nothing to
pregenerate. -/
theorem failed_generation_omitted (env : Env) (l₁ l₂ : List IssuedCall)
    (c : IssuedCall)
    (h : env.generate_payload c.toGenCall = none
      ∨ env.generate_payload c.toGenCall = some []) :
    runCalls env (l₁ ++ c :: l₂) = runCalls env (l₁ ++ l₂)
    ∧ ∀ webhooks keys checkouts_info checkout_lines_info apps am calls,
        mkAppsMap apps = Except.ok am →
        allCalls env webhooks am (checkouts_info.zip checkout_lines_info)
          = Except.ok calls →
        ∃ out, generate_payloads env webhooks keys checkouts_info
            checkout_lines_info apps = Except.ok out := by
  constructor
  · unfold runCalls
    rw [List.foldl_append, List.foldl_append, List.foldl_cons]
    have hstep : runStep env (l₁.foldl (runStep env) []) c
        = l₁.foldl (runStep env) [] := by
      rcases h with h | h <;> simp [runStep, store_payload, h]
    rw [hstep]
  · intro webhooks keys checkouts_info checkout_lines_info apps am calls ham hcalls
    exact ⟨_, generate_payloads_eq env webhooks keys checkouts_info
      checkout_lines_info apps am calls ham hcalls⟩

/-- C4 witness: under a generator that resolves every call with None, a
resolved call leaves the result map exactly as it was, and a concrete
orchestration still succeeds. -/
theorem failed_generation_omitted_witness :
    runCalls envNoGen [call1] = runCalls envNoGen []
    ∧ ∃ out, generate_payloads envNoGen [hookP] ["t1"] [ci1] [li1] [some app1]
        = Except.ok out := by
  have h := failed_generation_omitted envNoGen [] [] call1 (Or.inl rfl)
  exact ⟨h.1, h.2 [hookP] ["t1"] [ci1] [li1] [some app1] (appsMapOf [app1])
    [call1] rfl rfl⟩

/-- C1: once apps_map construction and per-checkout evaluation succeed,
the orchestrator returns a sequence positionally aligned with the input
token order — same length as the keys, position i determined by the token
at position i alone, and any position whose token had no payload
generated (no issued call targeted it, or every such call resolved
falsy; in particular every position when zero calls were issued) holds
the empty mapping, never a missing slot. -/
theorem pregeneration_alignment (env : Env) (webhooks : List Webhook)
    (keys : List String) (checkouts_info : List CheckoutInfo)
    (checkout_lines_info : List LinesInfo) (apps : List (Option App))
    (am : Nat → Option App) (calls : List IssuedCall)
    (ham : mkAppsMap apps = Except.ok am)
    (hcalls : allCalls env webhooks am (checkouts_info.zip checkout_lines_info)
      = Except.ok calls) :
    generate_payloads env webhooks keys checkouts_info checkout_lines_info apps
      = Except.ok (return_payloads (runCalls env calls) keys)
    ∧ (return_payloads (runCalls env calls) keys).length = keys.length
    ∧ (∀ (i : Nat), (return_payloads (runCalls env calls) keys)[i]?
        = (keys[i]?).map fun t => (listGet (runCalls env calls) t).getD [])
    ∧ ∀ (i : Nat) (t : String), keys[i]? = some t →
        (∀ c ∈ calls, c.checkout_token ≠ t
          ∨ env.generate_payload c.toGenCall = none
          ∨ env.generate_payload c.toGenCall = some []) →
        (return_payloads (runCalls env calls) keys)[i]? = some ([] : AppMap) := by
  refine ⟨generate_payloads_eq env webhooks keys checkouts_info checkout_lines_info
    apps am calls ham hcalls, ?_, ?_, ?_⟩
  · simp [return_payloads]
  · intro i
    unfold return_payloads
    rw [List.getElem?_map]
  · intro i t hk habs
    unfold return_payloads
    rw [List.getElem?_map, hk]
    simp only [Option.map_some']
    rw [listGet_runCalls_no_store env calls t habs]
    rfl

/-- C1 witness: two input tokens, no eligible checkout, zero generation
calls — the result is a sequence of two empty mappings in input order. -/
theorem pregeneration_alignment_witness :
    generate_payloads envBase [hookP] ["t1", "t2"] [ciFresh] [li1] [some app1]
      = Except.ok [[], []] := by
  have h := pregeneration_alignment envBase [hookP] ["t1", "t2"] [ciFresh] [li1]
    [some app1] (appsMapOf [app1]) [] rfl rfl
  rw [h.1]
  rfl

/-- C10: equal tokens at different input positions receive identical
nested mappings — the projection reads the shared per-token entry of one
results map, so position i and position j of a successful result agree
whenever keys i and j hold the same token. -/
theorem duplicate_tokens_same_result (env : Env) (webhooks : List Webhook)
    (keys : List String) (checkouts_info : List CheckoutInfo)
    (checkout_lines_info : List LinesInfo) (apps : List (Option App))
    (out : List AppMap) (i j : Nat)
    (hok : generate_payloads env webhooks keys checkouts_info checkout_lines_info
      apps = Except.ok out)
    (hij : keys[i]? = keys[j]?) :
    out[i]? = out[j]? := by
  obtain ⟨am, calls, ham, hcalls, hout⟩ := generate_payloads_ok_inv env webhooks
    keys checkouts_info checkout_lines_info apps out hok
  subst hout
  unfold return_payloads
  rw [List.getElem?_map, List.getElem?_map, hij]

/-- C10 witness: the token t1 appears at positions 0 and 1 and one
eligible checkout generates a payload for it; both positions hold the
same nested mapping. -/
theorem duplicate_tokens_same_result_witness :
    ([[(1, [("h:qp", [("q", "qp")])])], [(1, [("h:qp", [("q", "qp")])])]]
      : List AppMap)[0]?
    = ([[(1, [("h:qp", [("q", "qp")])])], [(1, [("h:qp", [("q", "qp")])])]]
      : List AppMap)[1]? :=
  duplicate_tokens_same_result envBase [hookP] ["t1", "t1"] [ci1] [li1]
    [some app1] [[(1, [("h:qp", [("q", "qp")])])], [(1, [("h:qp", [("q", "qp")])])]]
    0 1 rfl rfl

/-- C6 counterexample: two webhook rows for the same app with the same
subscription query are both selected for an eligible checkout, so the
orchestration issues two sibling generation calls whose captured
(checkout token, app id, query fingerprint) triples are identical —
refuting the claim that sibling calls always write pairwise-disjoint
triples. -/
theorem sibling_calls_same_triple_counterexample :
    mkAppsMap [some app1] = Except.ok (appsMapOf [app1])
    ∧ allCalls envBase [hookP, hookP2] (appsMapOf [app1]) [(ci1, li1)]
        = Except.ok [call1, call1] :=
  ⟨rfl, rfl⟩

/-- C6 amended: each (checkout token, app id, query fingerprint) triple
is bound at most once in the nested result map (its three levels are
keyed without duplicates), and provided the issued calls carry pairwise
distinct triples — which duplicate webhook rows with equal app and query,
or repeated input tokens, can violate — each completed truthy payload is
stored under exactly the triple captured when its call was issued. -/
theorem triple_disjoint_storage (env : Env) (calls : List IssuedCall)
    (hpair : calls.Pairwise (fun x y =>
      ¬ (x.checkout_token = y.checkout_token ∧ x.app_id = y.app_id
          ∧ x.query_hash = y.query_hash))) :
    ResultsMap.wf (runCalls env calls)
    ∧ ∀ c ∈ calls, ∀ p, env.generate_payload c.toGenCall = some p → p ≠ [] →
        lookupTriple (runCalls env calls) c.checkout_token c.app_id c.query_hash
          = some p := by
  refine ⟨wf_runCalls env calls, ?_⟩
  intro c hc p hp hne
  exact foldl_runStep_lookup_of_mem env calls [] c hpair hc p hp hne

/-- C6 amended witness: a single issued call stores its truthy payload
under exactly its captured triple, and the resulting nested map is
well-keyed. -/
theorem triple_disjoint_storage_witness :
    ResultsMap.wf (runCalls envBase [call1])
    ∧ lookupTriple (runCalls envBase [call1]) "t1" 1 "h:qp"
        = some [("q", "qp")] := by
  have h := triple_disjoint_storage envBase [call1] (by simp)
  exact ⟨h.1, h.2 call1 (by simp) [("q", "qp")] rfl (by simp)⟩

end SaleorWebhookDataloaders
